import Mathlib

/-!
Shallow embedding of `src/htmltree.py` (fourpoints/html-to-xml): the
stack-based HTML tree builder (`HTMLTree`) and the serializer
(`_serialize_html`), together with the spec's style-converter functions
(`toElementStyle` / `toNodeStyle`), and theorems settling the frozen claims.

The low-level tokenizer (`html.parser.HTMLParser`) is an external
collaborator: the core only consumes its callback events, so parsing a
string is modelled as feeding the corresponding list of callback events
(`handle_starttag`, `handle_endtag`, `handle_data`, ...) to the builder.
-/

namespace HtmlToXml

/-- Python errors that the embedded code can raise.  `assertionError` models a
failing `assert`, `stopIteration` the exhausted iterator in `next(...)`,
`indexError` indexing/popping an empty list, `nameError` an unbound name,
`notImplementedError` `raise NotImplementedError`. -/
inductive PyError where
  | assertionError
  | stopIteration
  | indexError
  | nameError
  | notImplementedError
deriving DecidableEq, Repr

/-- Tag of an `ET.Element` node.  In the source the tag is either a string
(for `ElementNode`) or one of the sentinel class objects `TextNode`,
`CommentNode`, `ProcessingInstructionNode` (lines 73-90 of htmltree.py). -/
inductive Tag where
  | name (s : String)
  | textNode
  | commentNode
  | piNode
deriving DecidableEq, Repr

/-- An `ET.Element`-style node: tag, attribute dict (insertion order, values
may be `None`), optional inline `.text`, and the list of children.
The builder only ever sets `.text` on sentinel-tag nodes; `.attrib` is only
set on `ElementNode`s. -/
inductive ETElement where
  | mk (tag : Tag) (attrib : List (String × Option String))
       (text : Option String) (children : List ETElement)

def ETElement.tag : ETElement → Tag
  | .mk t _ _ _ => t

def ETElement.attrib : ETElement → List (String × Option String)
  | .mk _ a _ _ => a

def ETElement.text : ETElement → Option String
  | .mk _ _ tx _ => tx

def ETElement.children : ETElement → List ETElement
  | .mk _ _ _ cs => cs

/-- The `EMPTY` set of htmltree.py lines 49-52: "block level elements that
disallow closing tags" (HTML void elements plus the three XML-style MathML
elements merged in). -/
def EMPTY : List String :=
  ["area", "base", "basefont", "br", "col", "frame", "hr", "img", "input",
   "link", "meta", "param", "mprescripts", "none", "mspace", "isindex"]

/-- The `CHILDLESS` test of line 105, `EMPTY | {CommentNode, TextNode,
ProcessingInstructionNode}`, applied to a node's tag: a string tag is
childless iff it is in `EMPTY`; the three sentinel tags are always
childless. -/
def CHILDLESS : Tag → Bool
  | .name s => EMPTY.contains s
  | _ => true

/-- Python `dict(attrs)` insertion semantics for one key: if the key is
already present its value is overwritten in place, otherwise the pair is
appended. -/
def dictInsert (k : String) (v : Option String) :
    List (String × Option String) → List (String × Option String)
  | [] => [(k, v)]
  | (k', v') :: rest =>
      if k = k' then (k', v) :: rest else (k', v') :: dictInsert k v rest

/-- Python `dict(attrs)`: insertion order preserved, duplicate keys resolved
last-write-wins (used by `handle_starttag`, line 161). -/
def pyDict (l : List (String × Option String)) : List (String × Option String) :=
  l.foldl (fun d kv => dictInsert kv.1 kv.2 d) []

/-- An open element on the builder stack: its tag, attributes and the
children accumulated so far.  In the source the stack holds the (mutable)
`ET.Element` objects themselves; here a frame is folded back into its
parent's child list when it is popped (or at end of input), which yields the
same final tree. -/
structure Frame where
  tag : String
  attrib : List (String × Option String)
  children : List ETElement

/-- Builder state: the `declaration` slot and the open-element stack, top
first.  The initial state's only frame is the synthetic `ROOT` element
(lines 113-115). -/
structure BState where
  declaration : Option String
  stack : List Frame

/-- Initial `HTMLTree` state: no declaration, stack `[ET.Element("ROOT")]`. -/
def initState : BState :=
  { declaration := none, stack := [⟨"ROOT", [], []⟩] }

/-- Close an open frame into the `ET.Element` it denotes. -/
def Frame.finalize (f : Frame) : ETElement :=
  .mk (.name f.tag) f.attrib none f.children

/-- Pop the top frame `f` off the rest of the stack, appending its finalized
element to the new top frame's children.  When `f` is the bottom (`ROOT`)
frame the stack becomes empty; in the source `self._root` would still
reference the tree, but that state is unreachable from tokenizer events
(the tokenizer lowercases tag names, and only a matching `</ROOT>` end tag
could pop the bottom frame without raising). -/
def collapse (f : Frame) : List Frame → List Frame
  | [] => []
  | g :: rest => { g with children := g.children ++ [f.finalize] } :: rest

/-- Method `_push` (lines 147-150): append `el` to the top-of-stack's
children and, if its tag is not in `CHILDLESS`, make it the new insertion
point.  (In this embedding a non-childless element is held as a new open
frame and appended to its parent when closed.)  An empty stack gives
`IndexError` on `self._stack[-1]`. -/
def _push (s : BState) (el : ETElement) : Except PyError BState :=
  match s.stack with
  | [] => .error .indexError
  | f :: rest =>
      if CHILDLESS el.tag then
        .ok { s with stack := { f with children := f.children ++ [el] } :: rest }
      else
        match el.tag with
        | .name t => .ok { s with stack := ⟨t, el.attrib, el.children⟩ :: f :: rest }
        | _ => .error .indexError

/-- Method `handle_starttag` (lines 159-161): push
`ElementNode(tag, dict(attrs))`. -/
def handle_starttag (s : BState) (tag : String)
    (attrs : List (String × Option String)) : Except PyError BState :=
  _push s (.mk (.name tag) (pyDict attrs) none [])

/-- Method `handle_endtag` (lines 163-166): `if tag not in EMPTY: assert
tag == self._pop().tag`.  A tag in `EMPTY` is ignored; otherwise the stack
is popped and an unequal tag raises `AssertionError` (popping an empty
stack raises `IndexError`). -/
def handle_endtag (s : BState) (tag : String) : Except PyError BState :=
  if EMPTY.contains tag then .ok s
  else
    match s.stack with
    | [] => .error .indexError
    | f :: rest =>
        if tag = f.tag then .ok { s with stack := collapse f rest }
        else .error .assertionError

/-- Method `handle_data` (lines 176-179): push `TextNode(data)`. -/
def handle_data (s : BState) (data : String) : Except PyError BState :=
  _push s (.mk .textNode [] (some data) [])

/-- Method `handle_comment` (lines 181-183): push `CommentNode(data)`. -/
def handle_comment (s : BState) (data : String) : Except PyError BState :=
  _push s (.mk .commentNode [] (some data) [])

/-- Method `handle_pi` (lines 189-191): push
`ProcessingInstructionNode(data)`. -/
def handle_pi (s : BState) (data : String) : Except PyError BState :=
  _push s (.mk .piNode [] (some data) [])

/-- Method `handle_decl` (lines 185-187): store the declaration text. -/
def handle_decl (s : BState) (decl : String) : Except PyError BState :=
  .ok { s with declaration := some decl }

/-- A tokenizer callback event, as delivered by `HTMLParser` to the
`handle_*` methods. -/
inductive Event where
  | startTag (tag : String) (attrs : List (String × Option String))
  | endTag (tag : String)
  | startendTag (tag : String) (attrs : List (String × Option String))
  | data (s : String)
  | comment (s : String)
  | pi (s : String)
  | decl (s : String)
deriving DecidableEq, Repr

/-- Dispatch one tokenizer event to the corresponding handler.
`handle_startendtag` (lines 155-157) is start-tag then end-tag. -/
def step (s : BState) : Event → Except PyError BState
  | .startTag tag attrs => handle_starttag s tag attrs
  | .endTag tag => handle_endtag s tag
  | .startendTag tag attrs => do
      let s' ← handle_starttag s tag attrs
      handle_endtag s' tag
  | .data d => handle_data s d
  | .comment d => handle_comment s d
  | .pi d => handle_pi s d
  | .decl d => handle_decl s d

/-- Feed a list of tokenizer events to the builder; the first raised
exception aborts the parse. -/
def feed (s : BState) : List Event → Except PyError BState
  | [] => .ok s
  | ev :: rest =>
      match step s ev with
      | .ok s' => feed s' rest
      | .error e => .error e

/-- Classmethod `fromstring` (lines 117-123), with the tokenizer's event
stream for the input string standing in for the string itself. -/
def fromstring (evs : List Event) : Except PyError BState :=
  feed initState evs

/-- Fold the stack below the frame `f` down to the bottom frame, closing
each unclosed element into its parent (the tree that `self._root`
references at end of input). -/
def foldStack (f : Frame) : List Frame → Frame
  | [] => f
  | g :: rest => foldStack { g with children := g.children ++ [f.finalize] } rest

/-- The children of the synthetic `ROOT` element at end of input. -/
def rootChildren (s : BState) : List ETElement :=
  match s.stack with
  | [] => []
  | f :: rest => (foldStack f rest).children

/-- The test `isinstance(x, ElementNode)` of the `root` property (line 141):
only nodes with a string tag are `ElementNode`s. -/
def isElementNode (el : ETElement) : Bool :=
  match el.tag with
  | .name _ => true
  | _ => false

/-- Property `root` (lines 138-141): the first `ElementNode` among the
`ROOT` element's children; `next` on the exhausted filter raises
`StopIteration`. -/
def rootProperty (children : List ETElement) : Except PyError ETElement :=
  match children.find? isElementNode with
  | some el => .ok el
  | none => .error .stopIteration

/-- Python truthiness of an optional string: `None` and `""` are falsy. -/
def pyTruthy : Option String → Bool
  | none => false
  | some s => !(s = "")

/-- Python `f"...{x}..."` rendering of an optional string: `None` prints as
`"None"`. -/
def pyStr : Option String → String
  | none => "None"
  | some s => s

/-- Truthiness of the `namespaces` argument: `None` and the empty dict are
falsy. -/
def nsTruthy : Option (List (String × String)) → Bool
  | none => false
  | some l => !l.isEmpty

/-- Insert one prefix/URI pair into a list sorted by URI (stable ascending),
mirroring one step of `sorted(namespaces.items(), key=lambda x: x[1])`
(line 217). -/
def insertByVal (p : String × String) :
    List (String × String) → List (String × String)
  | [] => [p]
  | q :: rest => if p.2 ≤ q.2 then p :: q :: rest else q :: insertByVal p rest

/-- The namespace items sorted by URI, `sorted(namespaces.items(),
key=lambda x: x[1])`. -/
def sortByVal : List (String × String) → List (String × String)
  | [] => []
  | p :: rest => insertByVal p (sortByVal rest)

/-- The namespace loop of lines 216-218.  The written string is the
source's literal `' xmlns:{attr}="{value}"'` — a plain (non-f) string, so
the braces and the words `attr`/`value` are emitted verbatim for every
entry, without substitution. -/
def nsLoop : List (String × String) → String
  | [] => ""
  | _ :: rest => " xmlns:\x7battr\x7d=\"\x7bvalue\x7d\"" ++ nsLoop rest

/-- The `xmlns` block guarded by `if namespaces:` (line 216). -/
def nsBlock (namespaces : Option (List (String × String))) : String :=
  match namespaces with
  | none => ""
  | some l => if l.isEmpty then "" else nsLoop (sortByVal l)

/-- Python `str.lower()` applied to a tag name (`ltag = tag.lower()`, line
225), lowering each character (the tag names involved are ASCII, where
`Char.toLower` agrees with Python's lowering). -/
def strLower (s : String) : String :=
  ⟨s.data.map Char.toLower⟩

/-- The attribute loop of lines 219-223: each pair emits
`' {attr}="{value}"'`, a `None` value emitting `' {attr}=""'`. -/
def attrsLoop : List (String × Option String) → String
  | [] => ""
  | (a, v) :: rest =>
      " " ++ a ++ "=\"" ++ (match v with | some s => s | none => "") ++ "\"" ++
      attrsLoop rest

mutual

/-- Function `_serialize_html` (lines 199-242), with the `write` calls to the
stream accumulated into the returned string.  Dispatch is on the sentinel
tag; for a string tag the element case emits `<tag`, the `xmlns`/attribute
block, `/>` or `>` by `EMPTY` membership of the lowercased tag, the inline
text when truthy (the `script`/`style` branch at lines 234-237 writes the
same text either way), every child recursively with `namespaces=None`, and
the closing tag only for non-`EMPTY` tags.  `indent` and `level` are passed
along but never read, as in the source. -/
def serialize_html (elem : ETElement) (indent : Option String)
    (namespaces : Option (List (String × String))) (level : Nat) : String :=
  match elem with
  | .mk tag attrib text children =>
    match tag with
    | .commentNode => "<!--" ++ pyStr text ++ "-->"
    | .textNode => pyStr text
    | .piNode => "<?" ++ pyStr text ++ ">"
    | .name t =>
        "<" ++ t ++
        (if !attrib.isEmpty || nsTruthy namespaces then
           nsBlock namespaces ++ attrsLoop attrib
         else "") ++
        (if EMPTY.contains (strLower t) then "/>" else ">") ++
        (if pyTruthy text then pyStr text else "") ++
        serializeChildren children indent (level + 1) ++
        (if EMPTY.contains (strLower t) then "" else "</" ++ t ++ ">")

/-- The loop `for e in elem: _serialize_html(write, e, indent, None,
level+1)` (lines 238-239). -/
def serializeChildren (children : List ETElement) (indent : Option String)
    (level : Nat) : String :=
  match children with
  | [] => ""
  | c :: cs => serialize_html c indent none level ++ serializeChildren cs indent level

end

/-- The value bound to the name `tree` in the module's global namespace when
`to_string` executes.  htmltree.py has no module-level `tree` (the only
`tree` is a local variable of the classmethod `fromstring`, line 119), so
the lookup fails and `tree.declaration` on line 131 raises `NameError`. -/
def moduleGlobalTree : Option BState := none

/-- Method `to_string` (lines 125-136): a non-`None` `indent` raises
`NotImplementedError`; otherwise line 131 evaluates `tree.declaration`,
where `tree` is an unbound global name, raising `NameError` before anything
is written.  The continuation after the lookup is kept for shape: it would
write `f"<!{self.declaration}>\n"` when `tree.declaration` is truthy, then
serialize `self.root` (which itself can raise `StopIteration`). -/
def to_string (self : BState) (indent : Option String)
    (namespaces : Option (List (String × String))) : Except PyError String :=
  if indent.isSome then .error .notImplementedError
  else
    match moduleGlobalTree with
    | none => .error .nameError
    | some tree =>
        let head :=
          if pyTruthy tree.declaration then "<!" ++ pyStr self.declaration ++ ">\n"
          else ""
        match rootProperty (rootChildren self) with
        | .ok r => .ok (head ++ serialize_html r indent namespaces 0)
        | .error e => .error e

mutual

/-- Invariant of the built trees: a node whose tag is in the void/childless
set has no children (an `EMPTY`-named element, or any sentinel-tag node),
recursively at every depth. -/
def voidOK (el : ETElement) : Bool :=
  match el with
  | .mk (.name t) _ _ cs => (!EMPTY.contains t || cs.isEmpty) && voidOKList cs
  | .mk _ _ _ cs => cs.isEmpty

/-- All elements of the list satisfy `voidOK`. -/
def voidOKList (l : List ETElement) : Bool :=
  match l with
  | [] => true
  | c :: cs => voidOK c && voidOKList cs

end

/-- A well-formed open frame: its tag is not in `EMPTY` (only non-childless
tags are ever pushed) and its accumulated children satisfy `voidOK`. -/
def frameOK (f : Frame) : Bool :=
  !EMPTY.contains f.tag && voidOKList f.children

/-- Every frame of the stack is well-formed. -/
def stackOK : List Frame → Bool
  | [] => true
  | f :: rest => frameOK f && stackOK rest

/-- Modelled from the spec: the "node style" tree shape of §3/§4.4 (the
Style Converter has no code under src/).  Every run of text is an explicit
sibling node; elements carry tag, attributes and children only. -/
inductive NNode where
  | element (tag : String) (attrs : List (String × String)) (children : List NNode)
  | text (s : String)
  | comment (s : String)
  | pi (s : String)

/-- Modelled from the spec: the kind of an "element style" node — an element
with tag and attributes, or a comment / processing-instruction / bare-text
node whose payload lives in the inline text field. -/
inductive EKind where
  | element (tag : String) (attrs : List (String × String))
  | textK
  | commentK
  | piK

/-- Modelled from the spec: an "element style" node of §3/§4.4 — text is
inlined as an optional leading `text` field and an optional trailing `tail`
field on each node. -/
inductive ENode where
  | mk (kind : EKind) (text : Option String) (children : List ENode)
       (tail : Option String)

def ENode.tail : ENode → Option String
  | .mk _ _ _ tl => tl

/-- Replace the trailing `tail` text of an element-style node. -/
def ENode.withTail : ENode → Option String → ENode
  | .mk k tx cs _, tl => .mk k tx cs tl

def NNode.isText : NNode → Bool
  | .text _ => true
  | _ => false

mutual

/-- Modelled from the spec: `toElementStyle` ("elify", §4.4).  For a
node-style Element, if its first child is a Text node it is consumed as the
new element's inline leading text; the remaining children are walked left to
right, a Text child becoming the `tail` of the immediately preceding
converted sibling.  Comment/ProcessingInstruction nodes (and a bare Text
node, which the walk never recurses into under the no-adjacent-text
precondition) pass through with their payload as inline text. -/
def toElementStyle : NNode → ENode
  | .element tag attrs children =>
      match children with
      | .text s :: rest => .mk (.element tag attrs) (some s) (elifyChildren rest) none
      | cs => .mk (.element tag attrs) none (elifyChildren cs) none
  | .text s => .mk .textK (some s) [] none
  | .comment s => .mk .commentK (some s) [] none
  | .pi s => .mk .piK (some s) [] none

/-- Modelled from the spec: the left-to-right walk of `toElementStyle` over
the remaining children — a Text child becomes the tail of the preceding
converted sibling, any other child is converted and appended. -/
def elifyChildren : List NNode → List ENode
  | [] => []
  | c :: .text s :: rest => (toElementStyle c).withTail (some s) :: elifyChildren rest
  | c :: rest => toElementStyle c :: elifyChildren rest

end

mutual

/-- Modelled from the spec: `toNodeStyle` ("nodify", §4.4).  For an
element-style node, build a fresh Element with the same tag/attributes; its
inline leading text (when present) becomes a leading Text child; each child
is converted recursively, a Text node holding the child's `tail` being
appended immediately after it.  Comment/ProcessingInstruction (and bare
text) nodes pass through with their payload preserved. -/
def toNodeStyle : ENode → NNode
  | .mk (.element tag attrs) tx cs _ =>
      .element tag attrs
        ((match tx with | some s => [NNode.text s] | none => []) ++ nodifyChildren cs)
  | .mk .textK tx _ _ => .text (tx.getD "")
  | .mk .commentK tx _ _ => .comment (tx.getD "")
  | .mk .piK tx _ _ => .pi (tx.getD "")

/-- Modelled from the spec: the child walk of `toNodeStyle` — each converted
child is followed by a Text node holding its `tail`, when one is present. -/
def nodifyChildren : List ENode → List NNode
  | [] => []
  | e :: rest =>
      toNodeStyle e ::
        ((match e.tail with | some s => [NNode.text s] | none => []) ++
         nodifyChildren rest)

end

/-- The head of the list is not a Text node (vacuously true for `[]`). -/
def headNotText : List NNode → Bool
  | .text _ :: _ => false
  | _ => true

mutual

/-- No two Text children are adjacent anywhere in the tree (the round-trip
precondition of §4.4). -/
def noAdjText : NNode → Bool
  | .element _ _ cs => noAdjTextList cs
  | _ => true

/-- No element of the list is a Text node immediately followed by another
Text node, and every element satisfies `noAdjText`, recursively. -/
def noAdjTextList : List NNode → Bool
  | [] => true
  | c :: rest => noAdjText c && (!c.isText || headNotText rest) && noAdjTextList rest

end

/-- Unrolling the child-serialization loop: the loop output is the
concatenation, in order, of the serializations of the children (each child
call passing `namespaces=None`). -/
theorem serializeChildren_foldr (l : List ETElement) (i : Option String) (lvl : Nat) :
    serializeChildren l i lvl =
      (l.map (fun c => serialize_html c i none lvl)).foldr (fun a b => a ++ b) "" := by
  induction l with
  | nil => rfl
  | cons c cs ih => simp [serializeChildren, ih]

/-- Scanning for the first `ElementNode`: nodes before the first element are
skipped and the first element is returned. -/
theorem find?_first_element (pre : List ETElement) (n : ETElement) (post : List ETElement)
    (hpre : ∀ m ∈ pre, isElementNode m = false) (hn : isElementNode n = true) :
    (pre ++ n :: post).find? isElementNode = some n := by
  induction pre with
  | nil => simp [List.find?_cons, hn]
  | cons m rest ih =>
      have hm : isElementNode m = false := hpre m (by simp)
      rw [List.cons_append, List.find?_cons_of_neg _ (by simp [hm])]
      exact ih (fun m' hm' => hpre m' (by simp [hm']))

/-- Scanning a child list with no `ElementNode` finds nothing. -/
theorem find?_none_of_all (cs : List ETElement)
    (h : ∀ m ∈ cs, isElementNode m = false) :
    cs.find? isElementNode = none := by
  rw [List.find?_eq_none]
  intro x hx
  simp [h x hx]

/-- C9: the `root` property returns the first child of the `ROOT` element
whose kind is Element, skipping any leading non-Element (Comment, Text,
ProcessingInstruction) siblings, and fails — with the `StopIteration` that
realizes the spec's `NotFound` — when no Element child exists. -/
theorem root_property_spec :
    (∀ (pre : List ETElement) (n : ETElement) (post : List ETElement),
        (∀ m ∈ pre, isElementNode m = false) → isElementNode n = true →
        rootProperty (pre ++ n :: post) = .ok n) ∧
    (∀ cs : List ETElement, (∀ m ∈ cs, isElementNode m = false) →
        rootProperty cs = .error .stopIteration) := by
  constructor
  · intro pre n post hpre hn
    simp [rootProperty, find?_first_element pre n post hpre hn]
  · intro cs h
    simp [rootProperty, find?_none_of_all cs h]

/-- C9 witness: on the document `<!-- note --><html></html>` the `root`
property skips the leading comment and returns the `html` element. -/
theorem root_property_spec_witness :
    rootProperty [ETElement.mk .commentNode [] (some " note ") [],
                  ETElement.mk (.name "html") [] none []] =
      .ok (ETElement.mk (.name "html") [] none []) :=
  root_property_spec.1 [ETElement.mk .commentNode [] (some " note ") []]
    (ETElement.mk (.name "html") [] none []) [] (by simp [isElementNode, ETElement.tag]) rfl


/-- Appending preserves the void-children invariant list predicate. -/
theorem voidOKList_append (a b : List ETElement) :
    voidOKList (a ++ b) = (voidOKList a && voidOKList b) := by
  induction a with
  | nil => simp [voidOKList]
  | cons c cs ih => simp [voidOKList, ih, Bool.and_assoc]

/-- Closing a well-formed frame yields a node satisfying the void-children
invariant. -/
theorem voidOK_finalize (f : Frame) (h : frameOK f = true) : voidOK f.finalize = true := by
  unfold frameOK at h
  rw [Bool.and_eq_true] at h
  show voidOK (.mk (.name f.tag) f.attrib none f.children) = true
  simp only [voidOK]
  rw [Bool.and_eq_true, Bool.or_eq_true]
  exact ⟨Or.inl h.1, h.2⟩

/-- Method `_push` preserves stack well-formedness when the pushed element
satisfies the void-children invariant. -/
theorem _push_preserves (s s' : BState) (el : ETElement)
    (h : _push s el = .ok s') (hs : stackOK s.stack = true)
    (hel : voidOK el = true) : stackOK s'.stack = true := by
  unfold _push at h
  cases hst : s.stack with
  | nil => rw [hst] at h; exact absurd h (by simp)
  | cons f rest =>
      rw [hst] at h
      rw [hst] at hs
      simp only [stackOK, Bool.and_eq_true] at hs
      by_cases hcl : CHILDLESS el.tag = true
      · simp only [hcl, if_true, Except.ok.injEq] at h
        cases h
        simp only [stackOK, Bool.and_eq_true]
        refine ⟨?_, hs.2⟩
        unfold frameOK at hs ⊢
        rw [Bool.and_eq_true] at hs ⊢
        exact ⟨hs.1.1, by rw [voidOKList_append, Bool.and_eq_true]; exact ⟨hs.1.2, by simp only [voidOKList, hel, Bool.and_self]⟩⟩
      · cases el with
        | mk tg a tx cs =>
          cases tg with
          | name t =>
              simp only [CHILDLESS, ETElement.tag, Bool.not_eq_true] at hcl
              simp only [hcl, CHILDLESS, ETElement.tag, ETElement.attrib, ETElement.children,
                Bool.false_eq_true, if_false, Except.ok.injEq] at h
              cases h
              simp only [stackOK, Bool.and_eq_true]
              refine ⟨?_, hs⟩
              unfold frameOK
              rw [Bool.and_eq_true]
              refine ⟨by simp only [hcl, Bool.not_false], ?_⟩
              simp only [voidOK, Bool.and_eq_true] at hel
              exact hel.2
          | textNode => simp [CHILDLESS, ETElement.tag] at hcl
          | commentNode => simp [CHILDLESS, ETElement.tag] at hcl
          | piNode => simp [CHILDLESS, ETElement.tag] at hcl

/-- A freshly constructed `ElementNode` (no children yet) satisfies the
void-children invariant whatever its tag. -/
theorem voidOK_fresh_element (tag : String) (a : List (String × Option String)) :
    voidOK (.mk (.name tag) a none []) = true := by
  simp [voidOK, voidOKList]

/-- Method `handle_endtag` preserves stack well-formedness. -/
theorem handle_endtag_preserves (s s' : BState) (tag : String)
    (h : handle_endtag s tag = .ok s') (hs : stackOK s.stack = true) :
    stackOK s'.stack = true := by
  unfold handle_endtag at h
  by_cases he : EMPTY.contains tag = true
  · rw [if_pos he] at h
    cases h
    exact hs
  · rw [if_neg he] at h
    cases hst : s.stack with
    | nil => rw [hst] at h; exact absurd h (by simp)
    | cons f rest =>
        rw [hst] at h
        rw [hst] at hs
        dsimp only at h
        by_cases ht : tag = f.tag
        · rw [if_pos ht] at h
          cases h
          simp only [stackOK, Bool.and_eq_true] at hs
          cases rest with
          | nil => simp [collapse, stackOK]
          | cons g r =>
              simp only [collapse, stackOK, Bool.and_eq_true] at hs ⊢
              obtain ⟨hf, hg, hr⟩ := hs
              refine ⟨?_, hr⟩
              unfold frameOK at hg ⊢
              simp only [Bool.and_eq_true] at hg ⊢
              refine ⟨hg.1, ?_⟩
              rw [voidOKList_append]
              simp [hg.2, voidOKList, voidOK_finalize f hf]
        · rw [if_neg ht] at h
          exact absurd h (by simp)

/-- Every tokenizer event preserves stack well-formedness. -/
theorem step_preserves (s s' : BState) (ev : Event)
    (h : step s ev = .ok s') (hs : stackOK s.stack = true) :
    stackOK s'.stack = true := by
  cases ev with
  | startTag tag attrs =>
      exact _push_preserves s s' _ h hs (voidOK_fresh_element tag (pyDict attrs))
  | endTag tag => exact handle_endtag_preserves s s' tag h hs
  | startendTag tag attrs =>
      simp only [step] at h
      cases hmid : handle_starttag s tag attrs with
      | error e => rw [hmid] at h; exact absurd h (by simp [Bind.bind, Except.bind])
      | ok smid =>
          rw [hmid] at h
          simp only [Bind.bind, Except.bind] at h
          have h1 : stackOK smid.stack = true :=
            _push_preserves s smid _ hmid hs (voidOK_fresh_element tag (pyDict attrs))
          exact handle_endtag_preserves smid s' tag h h1
  | data d => exact _push_preserves s s' _ h hs rfl
  | comment d => exact _push_preserves s s' _ h hs rfl
  | pi d => exact _push_preserves s s' _ h hs rfl
  | decl d =>
      simp only [step, handle_decl, Except.ok.injEq] at h
      cases h
      exact hs

/-- Feeding any event list preserves stack well-formedness. -/
theorem feed_preserves (evs : List Event) :
    ∀ (s s' : BState), feed s evs = .ok s' → stackOK s.stack = true →
      stackOK s'.stack = true := by
  induction evs with
  | nil =>
      intro s s' h hs
      simp only [feed, Except.ok.injEq] at h
      cases h
      exact hs
  | cons ev rest ih =>
      intro s s' h hs
      simp only [feed] at h
      cases hst : step s ev with
      | error e => rw [hst] at h; exact absurd h (by simp)
      | ok smid =>
          rw [hst] at h
          exact ih smid s' h (step_preserves s smid ev hst hs)

/-- Folding the remaining open frames at end of input preserves frame
well-formedness. -/
theorem foldStack_preserves (rest : List Frame) :
    ∀ f : Frame, frameOK f = true → stackOK rest = true →
      frameOK (foldStack f rest) = true := by
  induction rest with
  | nil => intro f hf _; simpa [foldStack] using hf
  | cons g r ih =>
      intro f hf hr
      simp only [stackOK, Bool.and_eq_true] at hr
      obtain ⟨hg, hr2⟩ := hr
      simp only [foldStack]
      apply ih _ ?_ hr2
      unfold frameOK at hg ⊢
      simp only [Bool.and_eq_true] at hg ⊢
      refine ⟨hg.1, ?_⟩
      rw [voidOKList_append]
      simp [hg.2, voidOKList, voidOK_finalize f hf]

/-- C4: in every tree the builder produces, a node whose tag is in the
void/childless set has zero children (invariant preserved by every event);
and parsing `<tag>anything</tag>` for a void tag yields the element with
zero children followed by the trailing text as its sibling. -/
theorem void_nodes_never_children :
    (∀ (evs : List Event) (s : BState), fromstring evs = .ok s →
        voidOKList (rootChildren s) = true) ∧
    (∀ (t : String) (attrs : List (String × Option String)),
        EMPTY.contains t = true →
        (fromstring [.startTag t attrs, .data "anything", .endTag t]).map rootChildren =
          .ok [ETElement.mk (.name t) (pyDict attrs) none [],
               ETElement.mk .textNode [] (some "anything") []]) := by
  constructor
  · intro evs s h
    have hs : stackOK s.stack = true :=
      feed_preserves evs initState s h (by decide)
    unfold rootChildren
    cases hst : s.stack with
    | nil => simp [voidOKList]
    | cons f rest =>
        rw [hst] at hs
        simp only [stackOK, Bool.and_eq_true] at hs
        have hfold := foldStack_preserves rest f hs.1 hs.2
        unfold frameOK at hfold
        rw [Bool.and_eq_true] at hfold
        exact hfold.2
  · intro t attrs ht
    have ht2 : t ∈ EMPTY := by simpa using ht
    simp [fromstring, feed, step, handle_starttag, handle_data, handle_endtag, _push,
      CHILDLESS, ETElement.tag, ht, ht2, initState, rootChildren, foldStack, Except.map]

/-- C4 witness: instantiated at the void tag `br` with no attributes. -/
theorem void_nodes_never_children_witness :
    voidOKList (rootChildren ⟨none, [⟨"ROOT", [],
        [ETElement.mk (.name "br") [] none [],
         ETElement.mk .textNode [] (some "anything") []]⟩]⟩) = true ∧
    (fromstring [.startTag "br" [], .data "anything", .endTag "br"]).map rootChildren =
      .ok [ETElement.mk (.name "br") [] none [],
           ETElement.mk .textNode [] (some "anything") []] :=
  ⟨void_nodes_never_children.1 [.startTag "br" [], .data "anything", .endTag "br"]
      ⟨none, [⟨"ROOT", [],
        [ETElement.mk (.name "br") [] none [],
         ETElement.mk .textNode [] (some "anything") []]⟩]⟩ (by rfl),
   void_nodes_never_children.2 "br" [] (by rfl)⟩

/-- C1 counterexample: parsing `<a><b></a></b>` does not succeed — the
`</a>` event pops `b` and the `assert` raises `AssertionError`, so no mode
of this code ignores a mismatched end tag. -/
theorem mismatched_endtag_raises :
    fromstring [.startTag "a" [], .startTag "b" [], .endTag "a", .endTag "b"] =
      Except.error PyError.assertionError := by rfl

/-- C1 amended: an end tag in the void set is ignored (state unchanged), but
an end tag not in the void set whose name differs from the top-of-stack tag
raises `AssertionError` — the parser is strict, not lenient. -/
theorem handle_endtag_strict (s : BState) (tag : String) (f : Frame) (rest : List Frame) :
    (EMPTY.contains tag = true → handle_endtag s tag = .ok s) ∧
    (EMPTY.contains tag = false → s.stack = f :: rest → tag ≠ f.tag →
      handle_endtag s tag = .error .assertionError) := by
  constructor
  · intro h
    unfold handle_endtag
    rw [if_pos h]
  · intro h hs hne
    unfold handle_endtag
    rw [if_neg (by simp only [h]; decide), hs]
    dsimp only
    rw [if_neg hne]

/-- C1 amended witness: `</a>` with `b` on top of the stack raises. -/
theorem handle_endtag_strict_witness :
    handle_endtag ⟨none, [⟨"b", [], []⟩, ⟨"a", [], []⟩, ⟨"ROOT", [], []⟩]⟩ "a" =
      .error .assertionError :=
  (handle_endtag_strict ⟨none, [⟨"b", [], []⟩, ⟨"a", [], []⟩, ⟨"ROOT", [], []⟩]⟩
      "a" ⟨"b", [], []⟩ [⟨"a", [], []⟩, ⟨"ROOT", [], []⟩]).2 (by rfl) rfl (by decide)

/-- C2 counterexample: serializing a void `br` element to which a text child
was abnormally attached (and whose `.text` is set) emits the text and the
child after `/>`, so the serializer does not stop at a void element. -/
theorem void_serialization_emits_children :
    serialize_html
        (.mk (.name "br") [] (some "T") [.mk .textNode [] (some "X") []])
        none none 0 = "<br/>TX" ∧ ("<br/>TX" : String) ≠ "<br/>" := by
  constructor
  · rfl
  · decide

/-- C2 amended: for an element node the serializer emits the open tag, the
xmlns/attribute block, then `/>` for a void (lowercased tag in `EMPTY`) or
`>` otherwise; in both cases the inline text (when truthy) and every child
in order are emitted; only the closing tag `</tag>` is reserved for
non-void elements. -/
theorem serialize_element_format (t : String) (attrib : List (String × Option String))
    (text : Option String) (children : List ETElement)
    (indent : Option String) (ns : Option (List (String × String))) (level : Nat) :
    serialize_html (.mk (.name t) attrib text children) indent ns level =
      "<" ++ t ++
      (if !attrib.isEmpty || nsTruthy ns then nsBlock ns ++ attrsLoop attrib else "") ++
      (if EMPTY.contains (strLower t) then "/>" else ">") ++
      (if pyTruthy text then pyStr text else "") ++
      ((children.map (fun c => serialize_html c indent none (level + 1))).foldr
        (fun a b => a ++ b) "") ++
      (if EMPTY.contains (strLower t) then "" else "</" ++ t ++ ">") := by
  rw [← serializeChildren_foldr]
  rfl

/-- C3 counterexample: the HTML void elements `embed`, `source`, `track`,
`wbr` named by the claim are not in the `EMPTY` set. -/
theorem EMPTY_missing_void_elements :
    ("embed" ∉ EMPTY) ∧ ("source" ∉ EMPTY) ∧ ("track" ∉ EMPTY) ∧ ("wbr" ∉ EMPTY) := by
  decide

/-- C3 amended: `EMPTY` contains area, base, br, col, hr, img, input, link,
meta, param, basefont, frame, isindex and the MathML trio mprescripts,
none, mspace — but not embed, source, track or wbr. -/
theorem EMPTY_membership :
    ("area" ∈ EMPTY) ∧ ("base" ∈ EMPTY) ∧ ("br" ∈ EMPTY) ∧ ("col" ∈ EMPTY) ∧
    ("hr" ∈ EMPTY) ∧ ("img" ∈ EMPTY) ∧ ("input" ∈ EMPTY) ∧ ("link" ∈ EMPTY) ∧
    ("meta" ∈ EMPTY) ∧ ("param" ∈ EMPTY) ∧ ("basefont" ∈ EMPTY) ∧
    ("frame" ∈ EMPTY) ∧ ("isindex" ∈ EMPTY) ∧ ("mprescripts" ∈ EMPTY) ∧
    ("none" ∈ EMPTY) ∧ ("mspace" ∈ EMPTY) ∧
    ("embed" ∉ EMPTY) ∧ ("source" ∉ EMPTY) ∧ ("track" ∉ EMPTY) ∧ ("wbr" ∉ EMPTY) := by
  decide

/-- C5: parsing `<p>Hello <b>world</b>!</p>` (its tokenizer events) yields a
root element `p` with exactly the three children Text "Hello ", element `b`
with single Text child "world", and Text "!", and serializing that tree
returns the original string. -/
theorem scenario_hello_world :
    (fromstring [.startTag "p" [], .data "Hello ", .startTag "b" [],
        .data "world", .endTag "b", .data "!", .endTag "p"]).map rootChildren =
      Except.ok [ETElement.mk (.name "p") [] none
        [ .mk .textNode [] (some "Hello ") [],
          .mk (.name "b") [] none [.mk .textNode [] (some "world") []],
          .mk .textNode [] (some "!") [] ]] ∧
    serialize_html
      (ETElement.mk (.name "p") [] none
        [ .mk .textNode [] (some "Hello ") [],
          .mk (.name "b") [] none [.mk .textNode [] (some "world") []],
          .mk .textNode [] (some "!") [] ]) none none 0 =
      "<p>Hello <b>world</b>!</p>" := by
  constructor
  · rfl
  · decide

/-- C6: `to_string` with the default `indent=None` always fails with
`NameError` (the body reads the unbound global name `tree`) before writing
any output, for every state and namespaces argument. -/
theorem to_string_raises_nameError (s : BState)
    (ns : Option (List (String × String))) :
    to_string s none ns = .error .nameError := by
  simp [to_string, moduleGlobalTree]

/-- C8: `to_string` raises `NotImplementedError` exactly when a non-`None`
`indent` is passed, before any output is produced; with the default
`indent` it fails differently (`NameError`), never with
`NotImplementedError`. -/
theorem to_string_indent_check (s : BState)
    (ns : Option (List (String × String))) :
    (∀ ind : String, to_string s (some ind) ns = .error .notImplementedError) ∧
    to_string s none ns = .error .nameError := by
  refine ⟨fun ind => by simp [to_string], ?_⟩
  simp [to_string, moduleGlobalTree]

/-- C10: with a namespaces mapping, the serializer emits on the root element
the literal text ` xmlns:{attr}="{value}"` for each entry — the braces and
the words `attr`/`value` verbatim, because line 218 writes a plain string
where an f-string was intended — instead of the substituted
` xmlns:m="http://www.w3.org/1998/Math/MathML"`. -/
theorem serialize_namespaces_literal :
    serialize_html (.mk (.name "html") [] none []) none
        (some [("m", "http://www.w3.org/1998/Math/MathML")]) 0 =
      "<html xmlns:\x7battr\x7d=\"\x7bvalue\x7d\"></html>" := by
  decide

/-- Converting to element style never sets a tail on the root result. -/
theorem toElementStyle_tail_none (t : NNode) : (toElementStyle t).tail = none := by
  cases t with
  | element tag attrs children =>
      cases children with
      | nil => rfl
      | cons c rest => cases c <;> rfl
  | text s => rfl
  | comment s => rfl
  | pi s => rfl

/-- Reading back the tail written by `withTail`. -/
theorem withTail_tail (e : ENode) (tl : Option String) : (e.withTail tl).tail = tl := by
  cases e
  rfl

/-- Conversion to node style ignores the converted node's own tail (tails
are expanded by the parent's child walk). -/
theorem toNodeStyle_withTail (e : ENode) (tl : Option String) :
    toNodeStyle (e.withTail tl) = toNodeStyle e := by
  cases e with
  | mk k tx cs tl2 => cases k <;> rfl

mutual

/-- Round-trip at a single node, mutually with `roundtrip_list`. -/
theorem roundtrip_node (t : NNode) (h : noAdjText t = true) :
    toNodeStyle (toElementStyle t) = t := by
  cases t with
  | text s => rfl
  | comment s => rfl
  | pi s => rfl
  | element tag attrs children =>
      simp only [noAdjText] at h
      cases children with
      | nil => rfl
      | cons c rest =>
          cases c with
          | text s =>
              simp only [noAdjTextList, Bool.and_eq_true] at h
              show NNode.element tag attrs
                  ([NNode.text s] ++ nodifyChildren (elifyChildren rest)) =
                NNode.element tag attrs (NNode.text s :: rest)
              rw [roundtrip_list rest h.2]
              rfl
          | element t2 a2 c2 =>
              show NNode.element tag attrs
                  ([] ++ nodifyChildren (elifyChildren (NNode.element t2 a2 c2 :: rest))) =
                NNode.element tag attrs (NNode.element t2 a2 c2 :: rest)
              rw [List.nil_append, roundtrip_list (NNode.element t2 a2 c2 :: rest) h]
          | comment s2 =>
              show NNode.element tag attrs
                  ([] ++ nodifyChildren (elifyChildren (NNode.comment s2 :: rest))) =
                NNode.element tag attrs (NNode.comment s2 :: rest)
              rw [List.nil_append, roundtrip_list (NNode.comment s2 :: rest) h]
          | pi s2 =>
              show NNode.element tag attrs
                  ([] ++ nodifyChildren (elifyChildren (NNode.pi s2 :: rest))) =
                NNode.element tag attrs (NNode.pi s2 :: rest)
              rw [List.nil_append, roundtrip_list (NNode.pi s2 :: rest) h]

/-- Round-trip of a child list with no adjacent Text nodes. -/
theorem roundtrip_list (l : List NNode) (ha : noAdjTextList l = true) :
    nodifyChildren (elifyChildren l) = l := by
  match l with
  | [] => rfl
  | [c] =>
      simp only [noAdjTextList, Bool.and_eq_true] at ha
      show toNodeStyle (toElementStyle c) ::
          ((match (toElementStyle c).tail with
            | some s => [NNode.text s] | none => []) ++ nodifyChildren []) = [c]
      rw [toElementStyle_tail_none, roundtrip_node c ha.1.1]
      rfl
  | c :: NNode.text s :: rest2 =>
      simp only [noAdjTextList, Bool.and_eq_true] at ha
      show toNodeStyle ((toElementStyle c).withTail (some s)) ::
          ((match ((toElementStyle c).withTail (some s)).tail with
            | some s => [NNode.text s] | none => []) ++
           nodifyChildren (elifyChildren rest2)) = c :: NNode.text s :: rest2
      rw [toNodeStyle_withTail, withTail_tail, roundtrip_node c ha.1.1,
        roundtrip_list rest2 ha.2.2]
      rfl
  | c :: NNode.element t2 a2 c2 :: rest2 =>
      simp only [noAdjTextList, Bool.and_eq_true] at ha
      show toNodeStyle (toElementStyle c) ::
          ((match (toElementStyle c).tail with
            | some s => [NNode.text s] | none => []) ++
           nodifyChildren (elifyChildren (NNode.element t2 a2 c2 :: rest2))) =
        c :: NNode.element t2 a2 c2 :: rest2
      rw [toElementStyle_tail_none, roundtrip_node c ha.1.1,
        roundtrip_list (NNode.element t2 a2 c2 :: rest2) (by simp only [noAdjTextList, Bool.and_eq_true]; exact ha.2)]
      rfl
  | c :: NNode.comment s2 :: rest2 =>
      simp only [noAdjTextList, Bool.and_eq_true] at ha
      show toNodeStyle (toElementStyle c) ::
          ((match (toElementStyle c).tail with
            | some s => [NNode.text s] | none => []) ++
           nodifyChildren (elifyChildren (NNode.comment s2 :: rest2))) =
        c :: NNode.comment s2 :: rest2
      rw [toElementStyle_tail_none, roundtrip_node c ha.1.1,
        roundtrip_list (NNode.comment s2 :: rest2) (by simp only [noAdjTextList, Bool.and_eq_true]; exact ha.2)]
      rfl
  | c :: NNode.pi s2 :: rest2 =>
      simp only [noAdjTextList, Bool.and_eq_true] at ha
      show toNodeStyle (toElementStyle c) ::
          ((match (toElementStyle c).tail with
            | some s => [NNode.text s] | none => []) ++
           nodifyChildren (elifyChildren (NNode.pi s2 :: rest2))) =
        c :: NNode.pi s2 :: rest2
      rw [toElementStyle_tail_none, roundtrip_node c ha.1.1,
        roundtrip_list (NNode.pi s2 :: rest2) (by simp only [noAdjTextList, Bool.and_eq_true]; exact ha.2)]
      rfl

end

/-- C7: for any node-style tree in which no two Text children are adjacent
anywhere, converting to element style and back yields a structurally equal
tree: `toNodeStyle (toElementStyle t) = t`. -/
theorem toNodeStyle_toElementStyle_roundtrip (t : NNode)
    (h : noAdjText t = true) : toNodeStyle (toElementStyle t) = t :=
  roundtrip_node t h

/-- C7 witness: the round-trip at the concrete tree for
`<p>Hello <b>world</b>!</p>`. -/
theorem toNodeStyle_toElementStyle_roundtrip_witness :
    noAdjText (NNode.element "p" []
      [.text "Hello ", .element "b" [] [.text "world"], .text "!"]) = true ∧
    toNodeStyle (toElementStyle (NNode.element "p" []
      [.text "Hello ", .element "b" [] [.text "world"], .text "!"])) =
      NNode.element "p" []
        [.text "Hello ", .element "b" [] [.text "world"], .text "!"] :=
  ⟨by rfl, toNodeStyle_toElementStyle_roundtrip
    (NNode.element "p" []
      [.text "Hello ", .element "b" [] [.text "world"], .text "!"]) (by rfl)⟩

end HtmlToXml
